import Mathlib

/-!
Verification of the Trade Risk Gateway and Whale Copy-Trading Monitor
of the `a3t` automated trading agent.

The Python sources are shallowly embedded:
* `RiskManager.assess_trade` / `RiskManager.record_trade`
  (src/trader/src/risk_manager.py) become pure functions over a
  `RiskManager` state record; monetary amounts (Python floats holding
  small decimals) are modelled as rationals, `datetime.utcnow()` as a
  natural number of seconds passed in explicitly, and the day/hour
  bucket keys (`date()`, `replace(minute=0,...)`) as integer division
  of that clock.
* `eth_utils.to_checksum_address` is an external library function; it
  is threaded through as a parameter `checksum : String → Option String`
  (`none` models the `ValueError` it raises on malformed input, caught
  by the surrounding `try`/`except` blocks).  The error message used
  when it fails is a fixed stand-in for the library's message; no
  theorem below depends on that particular text.
* `TradingEngine.execute_trade` / `_validate_trade_inputs`
  (src/trader/src/trading_logic.py) become an `Except`-valued function
  over the same gateway state plus a record of the chain collaborators'
  answers (`ChainEnv`).
* `WhaleMonitor.parse_trade_data` / `check_whale_trades`
  (src/trader/src/whale_monitor.py) become pure functions over the
  monitor's per-address seen-set; the HTTP feed result of a poll cycle
  is passed in as data.
-/

namespace A3T

/-- Day bucket of a clock instant (seconds): `datetime.utcnow().date()`. -/
def dayOf (t : Nat) : Nat := t / 86400

/-- Hour bucket of a clock instant (seconds):
`datetime.utcnow().replace(minute=0, second=0, microsecond=0)`. -/
def hourOf (t : Nat) : Nat := t / 3600

/-- Python's `str.lower()` over the code points (`String.toLower` is
not kernel-reducible; this is the same map on the character list). -/
def strLower (s : String) : String := ⟨s.data.map Char.toLower⟩

/-- Python's `str.startswith(pre)` over the code points
(`String.startsWith` is not kernel-reducible; this is the same prefix
test on the character list). -/
def strStartsWith (s pre : String) : Bool := pre.data.isPrefixOf s.data

/-- The assessment dictionary built by `RiskManager.assess_trade`. -/
structure Decision where
  approved : Bool
  reason : String
  risk_score : Nat
  warnings : List String
  timestamp : Nat
  deriving Repr, DecidableEq

/-- One entry of `RiskManager.trade_history` (`trade_record` dict in
`record_trade`). -/
structure TradeRecord where
  timestamp : Nat
  to_address : String
  value_eth : ℚ
  tx_hash : String
  daily_volume : ℚ
  daily_trade_count : Nat
  deriving Repr, DecidableEq

/-- The mutable state of `RiskManager`: the four limits, the allow-list
and the window counters.  `daily_volume`, `hourly_trade_count` and
`daily_trade_count` are `defaultdict`s read with `.get(key, 0)`, so they
are modelled as total functions from the bucket key, defaulting to 0. -/
structure RiskManager where
  max_trade_amount_eth : ℚ
  max_daily_volume_eth : ℚ
  max_hourly_trades : Nat
  max_daily_trades : Nat
  allowed_contracts : List String
  daily_volume : Nat → ℚ
  hourly_trade_count : Nat → Nat
  daily_trade_count : Nat → Nat
  trade_history : List TradeRecord

/-- The method `RiskManager.assess_trade(to_address, value_eth, data)` at clock
instant `now`.  The checks appear in the source's order: amount limit,
allow-list, daily volume, hourly count, daily count, large-data warning,
non-positive value, then the three soft warnings.  The `except` branch
(address normalization failure) is the `checksum … = none` case. -/
def assess_trade (checksum : String → Option String) (s : RiskManager)
    (to_address : String) (value_eth : ℚ) (data : String) (now : Nat) : Decision :=
  match checksum to_address with
  | none =>
      { approved := false
        reason := "Assessment error: invalid address"
        risk_score := 100
        warnings := []
        timestamp := now }
  | some addr =>
      if value_eth > s.max_trade_amount_eth then
        { approved := false
          reason := "Trade amount " ++ toString value_eth ++ " ETH exceeds limit "
                      ++ toString s.max_trade_amount_eth ++ " ETH"
          risk_score := 50
          warnings := []
          timestamp := now }
      else if addr ∉ s.allowed_contracts then
        { approved := false
          reason := "Contract " ++ addr ++ " not in allowed contracts list"
          risk_score := 100
          warnings := []
          timestamp := now }
      else if s.daily_volume (dayOf now) + value_eth > s.max_daily_volume_eth then
        { approved := false
          reason := "Daily volume would exceed limit: "
                      ++ toString (s.daily_volume (dayOf now) + value_eth) ++ " > "
                      ++ toString s.max_daily_volume_eth ++ " ETH"
          risk_score := 40
          warnings := []
          timestamp := now }
      else if s.hourly_trade_count (hourOf now) ≥ s.max_hourly_trades then
        { approved := false
          reason := "Hourly trade count limit reached: "
                      ++ toString (s.hourly_trade_count (hourOf now)) ++ " >= "
                      ++ toString s.max_hourly_trades
          risk_score := 30
          warnings := []
          timestamp := now }
      else if s.daily_trade_count (dayOf now) ≥ s.max_daily_trades then
        { approved := false
          reason := "Daily trade count limit reached: "
                      ++ toString (s.daily_trade_count (dayOf now)) ++ " >= "
                      ++ toString s.max_daily_trades
          risk_score := 25
          warnings := []
          timestamp := now }
      else if value_eth ≤ 0 then
        { approved := false
          reason := "Trade amount must be positive"
          risk_score := (if data ≠ "" && data ≠ "0x" && decide (10000 < data.length)
                         then 10 else 0) + 100
          warnings := if data ≠ "" && data ≠ "0x" && decide (10000 < data.length)
                      then ["Large data payload detected"] else []
          timestamp := now }
      else
        { approved := true
          reason := ""
          risk_score := (if data ≠ "" && data ≠ "0x" && decide (10000 < data.length)
                         then 10 else 0)
                          + (if value_eth > s.max_trade_amount_eth * (4/5) then 5 else 0)
                          + (if s.daily_volume (dayOf now) + value_eth
                               > s.max_daily_volume_eth * (4/5) then 5 else 0)
                          + (if (s.daily_trade_count (dayOf now) + 1 : ℚ)
                               > (s.max_daily_trades : ℚ) * (4/5) then 5 else 0)
          warnings := (if data ≠ "" && data ≠ "0x" && decide (10000 < data.length)
                       then ["Large data payload detected"] else [])
                        ++ (if value_eth > s.max_trade_amount_eth * (4/5)
                            then ["High-value trade detected"] else [])
                        ++ (if s.daily_volume (dayOf now) + value_eth
                              > s.max_daily_volume_eth * (4/5)
                            then ["Approaching daily volume limit"] else [])
                        ++ (if (s.daily_trade_count (dayOf now) + 1 : ℚ)
                              > (s.max_daily_trades : ℚ) * (4/5)
                            then ["Approaching daily trade limit"] else [])
          timestamp := now }

/-- The method `RiskManager.record_trade(to_address, value_eth, tx_hash)` at clock
instant `now`.  A normalization failure is caught by the method's
`try`/`except` before any counter is touched, so it leaves the state
unchanged. -/
def record_trade (checksum : String → Option String) (s : RiskManager)
    (to_address : String) (value_eth : ℚ) (tx_hash : String) (now : Nat) : RiskManager :=
  match checksum to_address with
  | none => s
  | some addr =>
      let today := dayOf now
      let current_hour := hourOf now
      let new_daily_volume := s.daily_volume today + value_eth
      let new_daily_count := s.daily_trade_count today + 1
      let trade_record : TradeRecord :=
        { timestamp := now
          to_address := addr
          value_eth := value_eth
          tx_hash := tx_hash
          daily_volume := new_daily_volume
          daily_trade_count := new_daily_count }
      let history := s.trade_history ++ [trade_record]
      { s with
        daily_volume := fun d => if d = today then new_daily_volume else s.daily_volume d
        hourly_trade_count := fun h =>
          if h = current_hour then s.hourly_trade_count h + 1 else s.hourly_trade_count h
        daily_trade_count := fun d => if d = today then new_daily_count else s.daily_trade_count d
        trade_history :=
          if history.length > 1000 then history.drop (history.length - 1000) else history }

/-- Answers of the chain collaborators consumed by one
`TradingEngine.execute_trade` call: `web3_client.get_balance()`,
`get_gas_price()`, `estimate_gas(tx)` (`none` = the call raised, caught
and replaced by the default gas limit) and the `tx_hash` returned by
`send_transaction`. -/
structure ChainEnv where
  balance_wei : ℚ
  gas_price_wei : ℚ
  gas_estimate : Option Nat
  tx_hash : String

/-- Failure outcomes of `TradingEngine.execute_trade`: the `ValueError`s
raised before submission.  `validation` covers the address-normalization
failure and every `_validate_trade_inputs` raise; `riskRejected` is the
"Trade rejected by risk manager" raise; `insufficientFunds` the balance
raise. -/
inductive ExecError where
  | validation (msg : String)
  | riskRejected (reason : String)
  | insufficientFunds (msg : String)
  deriving Repr, DecidableEq

/-- The dictionary returned by a successful `execute_trade`. -/
structure ExecResult where
  tx_hash : String
  to_address : String
  value_eth : ℚ
  gas_used : Nat
  status : String
  timestamp : Nat
  risk_assessment : Decision
  deriving Repr, DecidableEq

/-- The method `TradingEngine._validate_trade_inputs(to_address, value_eth, data)`:
`some msg` models the `ValueError(msg)` it raises, `none` passing
validation.  Note the payload check demands only the `0x` prefix and an
even total length — it does not check the characters are hex digits. -/
def validate_trade_inputs (to_address : String) (value_eth : ℚ) (data : String) :
    Option String :=
  if to_address = "" ∨ to_address.length ≠ 42 ∨ ¬ strStartsWith to_address "0x" then
    some "Invalid address format"
  else if value_eth ≤ 0 then
    some "Trade amount must be positive"
  else if value_eth > 1000 then
    some "Trade amount too large"
  else if data ≠ "" ∧ (¬ strStartsWith data "0x" ∨ data.length % 2 ≠ 0) then
    some "Invalid data format"
  else
    none

/-- The method `TradingEngine.execute_trade(to_address, value_eth, data)` at clock
instant `now`: normalize the address, run `_validate_trade_inputs`, ask
`assess_trade`, check the balance against value plus a 50k-gas static
reserve, pick the gas limit (the estimate with a 20% buffer, or the
50k default when estimation fails), submit, and `record_trade` the
outcome.  Returns the result together with the updated gateway state. -/
def execute_trade (checksum : String → Option String) (env : ChainEnv)
    (s : RiskManager) (to_address : String) (value_eth : ℚ) (data : String)
    (now : Nat) : Except ExecError (ExecResult × RiskManager) :=
  match checksum to_address with
  | none => .error (.validation "Unknown address format")
  | some addr =>
      match validate_trade_inputs addr value_eth data with
      | some msg => .error (.validation msg)
      | none =>
          let risk_assessment := assess_trade checksum s addr value_eth data now
          if risk_assessment.approved = false then
            .error (.riskRejected ("Trade rejected by risk manager: " ++ risk_assessment.reason))
          else
            let required_wei := value_eth * 1000000000000000000
            let estimated_gas_cost := 50000 * env.gas_price_wei
            let total_required_wei := required_wei + estimated_gas_cost
            if env.balance_wei < total_required_wei then
              .error (.insufficientFunds "Insufficient balance")
            else
              let gas : Nat :=
                match env.gas_estimate with
                | some g => g * 12 / 10
                | none => 50000
              let s' := record_trade checksum s addr value_eth env.tx_hash now
              .ok ({ tx_hash := env.tx_hash
                     to_address := addr
                     value_eth := value_eth
                     gas_used := gas
                     status := "pending"
                     timestamp := now
                     risk_assessment := risk_assessment }, s')

/-- One raw item of the feed result consumed by
`WhaleMonitor.parse_trade_data`, with the `.get(...)` defaults already
applied: `slug`, `outcome`, `amount`, `avgPrice`, `timestamp`, `txHash`.
`timestamp = none` models a missing (`''`) or unparseable timestamp
string — both branches of the source fall back to `datetime.utcnow()`. -/
structure TradeData where
  slug : String
  outcome : String
  amount : ℚ
  avgPrice : ℚ
  timestamp : Option Nat
  txHash : String
  deriving Repr, DecidableEq

/-- The `WhaleTrade` dataclass. -/
structure WhaleTrade where
  whale_address : String
  market_id : String
  outcome : Nat
  amount_usdc : ℚ
  price : ℚ
  timestamp : Nat
  trade_hash : String
  deriving Repr, DecidableEq

/-- The `WhaleConfig` dataclass. -/
structure WhaleConfig where
  address : String
  name : String
  category : String
  position_percentage : ℚ
  max_daily_trades : Nat
  enabled : Bool
  deriving Repr, DecidableEq

/-- The monitor state used by `check_whale_trades`: the registry
`monitored_whales` and the per-address dedup sets `recent_trades`
(a `defaultdict(set)`, modelled as a total function to a membership
list). -/
structure WhaleMonitor where
  monitored_whales : List (String × WhaleConfig)
  recent_trades : String → List String

/-- The method `WhaleMonitor.parse_trade_data(trade_data, whale_address)` at clock
instant `now`.  A missing or unparseable timestamp becomes `now`; a
trade older than five minutes (300 s) is dropped (`none`).  The age test
`datetime.utcnow() - timestamp > timedelta(minutes=5)` is truncated
subtraction: a timestamp in the future compares as age zero, exactly as
a negative `timedelta` is not `> 5 minutes`. -/
def parse_trade_data (now : Nat) (trade_data : TradeData) (whale_address : String) :
    Option WhaleTrade :=
  let outcome : Nat :=
    if strLower trade_data.outcome = "yes" ∨ strLower trade_data.outcome = "true"
        ∨ strLower trade_data.outcome = "1" then 1 else 0
  let timestamp := trade_data.timestamp.getD now
  if now - timestamp > 300 then
    none
  else
    some { whale_address := whale_address
           market_id := trade_data.slug
           outcome := outcome
           amount_usdc := trade_data.amount
           price := trade_data.avgPrice
           timestamp := timestamp
           trade_hash := trade_data.txHash }

/-- The `for trade_data in recent_trades_data` loop of
`check_whale_trades`: parse each item, drop the ones whose `trade_hash`
is already in the seen set, add the new ones to the set and collect them
(in feed order) as the trades to act on. -/
def processFeed (whale_address : String) (now : Nat) (seen : List String) :
    List TradeData → List String × List WhaleTrade
  | [] => (seen, [])
  | trade_data :: rest =>
      match parse_trade_data now trade_data whale_address with
      | none => processFeed whale_address now seen rest
      | some trade =>
          if trade.trade_hash ∈ seen then
            processFeed whale_address now seen rest
          else
            let out := processFeed whale_address now (trade.trade_hash :: seen) rest
            (out.1, trade :: out.2)

/-- The method `WhaleMonitor.check_whale_trades(whale_address)` with the feed
result `feed` of this poll cycle passed in (the source fetches it from
the network).  Returns the updated monitor state and the list of new
trades, each of which the monitoring loop then submits for copy
execution. -/
def check_whale_trades (ms : WhaleMonitor) (whale_address : String)
    (feed : List TradeData) (now : Nat) : WhaleMonitor × List WhaleTrade :=
  match (ms.monitored_whales.lookup whale_address) with
  | none => (ms, [])
  | some cfg =>
      if cfg.enabled = false then (ms, [])
      else
        let out := processFeed whale_address now (ms.recent_trades whale_address) feed
        ({ ms with recent_trades := fun w =>
             if w = whale_address then out.1 else ms.recent_trades w }, out.2)

/-- Successive poll cycles of the monitoring loop for one tracked
address: each cycle runs `check_whale_trades` on that cycle's feed
result and clock, and the trades it returns are the copy-execution
attempts the loop then makes. -/
def runCycles (whale_address : String) (ms : WhaleMonitor) :
    List (List TradeData × Nat) → WhaleMonitor × List WhaleTrade
  | [] => (ms, [])
  | c :: rest =>
      let out1 := check_whale_trades ms whale_address c.1 c.2
      let out2 := runCycles whale_address out1.1 rest
      (out2.1, out1.2 ++ out2.2)

/-! ## Shared helpers and concrete fixtures -/

/-- The identity address normalizer, used to instantiate theorems at
concrete inputs. -/
def csSome : String → Option String := fun a => some a

/-- A concrete gateway state with the source's default limits
(`1.0` ETH per trade, `10.0` ETH daily, 20 hourly, 100 daily), one
allow-listed contract and all counters at zero. -/
def mgrA : RiskManager :=
  { max_trade_amount_eth := 1
    max_daily_volume_eth := 10
    max_hourly_trades := 20
    max_daily_trades := 100
    allowed_contracts := ["0xA"]
    daily_volume := fun _ => 0
    hourly_trade_count := fun _ => 0
    daily_trade_count := fun _ => 0
    trade_history := [] }

/-- The function `assess_trade` as a state-passing operation.  The method body never
assigns a field of `self` (the counters are read with `.get`, never
through the `defaultdict` item lookup that would insert), so the state
component is returned unchanged. -/
def assess_trade_op (checksum : String → Option String) (to_address : String)
    (value_eth : ℚ) (data : String) (now : Nat) (s : RiskManager) :
    RiskManager × Decision :=
  (s, assess_trade checksum s to_address value_eth data now)

/-- Runs `n` consecutive `assess_trade` calls on the same intent at the same
clock instant, threading the gateway state through, collecting every
returned decision. -/
def assess_trade_times (checksum : String → Option String) (to_address : String)
    (value_eth : ℚ) (data : String) (now : Nat) :
    Nat → RiskManager → RiskManager × List Decision
  | 0, s => (s, [])
  | n + 1, s =>
      let step := assess_trade_op checksum to_address value_eth data now s
      let rest := assess_trade_times checksum to_address value_eth data now n step.1
      (rest.1, step.2 :: rest.2)

/-- Modelled from the spec: "payload empty or valid hex of even length"
(§4.2 step 1).  This is the spec's wording of the payload condition,
written out for comparison with the weaker test the code's
`_validate_trade_inputs` actually performs (`0x` prefix and even total
length, hex digits never checked). -/
def specValidHexPayload (data : String) : Bool :=
  strStartsWith data "0x" && data.length % 2 == 0
    && (data.data.drop 2).all fun c => c.isDigit || ("abcdef".data.contains (Char.toLower c))

/-- A gateway state with `max_trade_amount_eth = 5` but
`max_daily_volume_eth = 3`: a single trade of 4 passes the per-trade
check yet exceeds the daily volume cap on its own, in every day
bucket. -/
def mgrC3 : RiskManager :=
  { max_trade_amount_eth := 5
    max_daily_volume_eth := 3
    max_hourly_trades := 20
    max_daily_trades := 100
    allowed_contracts := ["0xA"]
    daily_volume := fun _ => 0
    hourly_trade_count := fun _ => 0
    daily_trade_count := fun _ => 0
    trade_history := [] }

/-- A well-formed 42-character `0x` address used at concrete inputs. -/
def addr42 : String := "0x1111111111111111111111111111111111111111"

/-- Concrete chain-collaborator answers for instantiating
`execute_trade`. -/
def envA : ChainEnv :=
  { balance_wei := 100000000000000000000
    gas_price_wei := 1
    gas_estimate := none
    tx_hash := "0xfeed" }

/-- A concrete enabled whale configuration. -/
def cfgW : WhaleConfig :=
  { address := "0xW"
    name := "whale"
    category := "smart"
    position_percentage := 1
    max_daily_trades := 10
    enabled := true }

/-- A concrete monitor state tracking `0xW` with an empty seen set. -/
def msW : WhaleMonitor :=
  { monitored_whales := [("0xW", cfgW)]
    recent_trades := fun _ => [] }

/-- A feed item observed 100 seconds in the past (fresh). -/
def tdFresh : TradeData :=
  { slug := "market-1"
    outcome := "yes"
    amount := 100
    avgPrice := 1
    timestamp := some 900
    txHash := "0xh1" }

/-- A feed item observed 400 seconds in the past (stale at `now = 1000`). -/
def tdStale : TradeData :=
  { slug := "market-2"
    outcome := "no"
    amount := 50
    avgPrice := 1
    timestamp := some 600
    txHash := "0xh2" }

/-- A feed item whose timestamp string was missing or unparseable. -/
def tdNoTs : TradeData :=
  { slug := "market-3"
    outcome := "yes"
    amount := 25
    avgPrice := 1
    timestamp := none
    txHash := "0xh3" }

/-- The parsed `WhaleTrade` that `tdFresh` yields at `now = 1000`. -/
def trW : WhaleTrade :=
  { whale_address := "0xW"
    market_id := "market-1"
    outcome := 1
    amount_usdc := 100
    price := 1
    timestamp := 900
    trade_hash := "0xh1" }

/-! ## Helper lemmas -/

/-- A string with a nonempty prefix is nonempty (used for the dynamic
rejection reasons built with `++`). -/
theorem append_ne_empty {a : String} (b : String) (h : a ≠ "") : a ++ b ≠ "" := by
  intro hab
  apply h
  rw [String.ext_iff] at hab ⊢
  rw [String.data_append] at hab
  exact (List.append_eq_nil.mp hab).1

/-! ## C2 — assess is side-effect-free and repeatable -/

/-- C2: for every gateway state and fixed clock instant, any number of
consecutive `assess_trade` calls leaves the state exactly as it was and
every call returns the same decision (the one a single call computes);
only `record_trade` mutates the state. -/
theorem assess_trade_pure (checksum : String → Option String) (s : RiskManager)
    (to_address : String) (value_eth : ℚ) (data : String) (now : Nat) (n : Nat) :
    assess_trade_times checksum to_address value_eth data now n s =
      (s, List.replicate n (assess_trade checksum s to_address value_eth data now)) := by
  induction n with
  | zero => rfl
  | succ k ih =>
      simp only [assess_trade_times, assess_trade_op] at ih ⊢
      rw [ih]
      rfl

/-! ## C9 — decision invariant: approval vs reason and risk score -/

/-- C9: every decision `assess_trade` returns with `approved = true` has
an empty reason and a risk score of at most 25 (large payload 10 plus
the three 5-point warnings), and every decision with `approved = false`
has a nonempty reason. -/
theorem decision_reason_score_invariant (checksum : String → Option String)
    (s : RiskManager) (to_address : String) (value_eth : ℚ) (data : String) (now : Nat) :
    ((assess_trade checksum s to_address value_eth data now).approved = true →
        (assess_trade checksum s to_address value_eth data now).reason = "" ∧
        (assess_trade checksum s to_address value_eth data now).risk_score ≤ 25) ∧
    ((assess_trade checksum s to_address value_eth data now).approved = false →
        (assess_trade checksum s to_address value_eth data now).reason ≠ "") := by
  unfold assess_trade
  cases checksum to_address with
  | none =>
      refine ⟨fun h => by simp at h, fun _ => ?_⟩
      show "Assessment error: invalid address" ≠ ""
      decide
  | some addr =>
      dsimp only
      by_cases h1 : value_eth > s.max_trade_amount_eth
      · rw [if_pos h1]
        refine ⟨fun h => by simp at h, fun _ => ?_⟩
        show "Trade amount " ++ toString value_eth ++ " ETH exceeds limit "
              ++ toString s.max_trade_amount_eth ++ " ETH" ≠ ""
        exact append_ne_empty _ (append_ne_empty _ (append_ne_empty _
          (append_ne_empty _ (by decide))))
      · rw [if_neg h1]
        by_cases h2 : addr ∉ s.allowed_contracts
        · rw [if_pos h2]
          refine ⟨fun h => by simp at h, fun _ => ?_⟩
          show "Contract " ++ addr ++ " not in allowed contracts list" ≠ ""
          exact append_ne_empty _ (append_ne_empty _ (by decide))
        · rw [if_neg h2]
          by_cases h3 : s.daily_volume (dayOf now) + value_eth > s.max_daily_volume_eth
          · rw [if_pos h3]
            refine ⟨fun h => by simp at h, fun _ => ?_⟩
            show "Daily volume would exceed limit: "
                  ++ toString (s.daily_volume (dayOf now) + value_eth) ++ " > "
                  ++ toString s.max_daily_volume_eth ++ " ETH" ≠ ""
            exact append_ne_empty _ (append_ne_empty _ (append_ne_empty _
              (append_ne_empty _ (by decide))))
          · rw [if_neg h3]
            by_cases h4 : s.hourly_trade_count (hourOf now) ≥ s.max_hourly_trades
            · rw [if_pos h4]
              refine ⟨fun h => by simp at h, fun _ => ?_⟩
              show "Hourly trade count limit reached: "
                    ++ toString (s.hourly_trade_count (hourOf now)) ++ " >= "
                    ++ toString s.max_hourly_trades ≠ ""
              exact append_ne_empty _ (append_ne_empty _ (append_ne_empty _ (by decide)))
            · rw [if_neg h4]
              by_cases h5 : s.daily_trade_count (dayOf now) ≥ s.max_daily_trades
              · rw [if_pos h5]
                refine ⟨fun h => by simp at h, fun _ => ?_⟩
                show "Daily trade count limit reached: "
                      ++ toString (s.daily_trade_count (dayOf now)) ++ " >= "
                      ++ toString s.max_daily_trades ≠ ""
                exact append_ne_empty _ (append_ne_empty _ (append_ne_empty _ (by decide)))
              · rw [if_neg h5]
                by_cases h7 : value_eth ≤ 0
                · rw [if_pos h7]
                  refine ⟨fun h => by simp at h, fun _ => ?_⟩
                  show "Trade amount must be positive" ≠ ""
                  decide
                · rw [if_neg h7]
                  refine ⟨fun _ => ⟨rfl, ?_⟩, fun h => by simp at h⟩
                  show (if data ≠ "" && data ≠ "0x" && decide (10000 < data.length)
                        then 10 else 0)
                        + (if value_eth > s.max_trade_amount_eth * (4/5) then 5 else 0)
                        + (if s.daily_volume (dayOf now) + value_eth
                             > s.max_daily_volume_eth * (4/5) then 5 else 0)
                        + (if (s.daily_trade_count (dayOf now) + 1 : ℚ)
                             > (s.max_daily_trades : ℚ) * (4/5) then 5 else 0) ≤ 25
                  split <;> split <;> split <;> split <;> omega

/-! ## C6 — non-allow-listed destinations are always rejected -/

/-- C6: for every intent whose (normalized) destination is not in the
allow-list and whose value is positive and at most the per-trade limit,
`assess_trade` rejects with risk score at least 100 (here exactly 100)
and a reason naming the address, for every counter state. -/
theorem assess_not_allow_listed (checksum : String → Option String)
    (s : RiskManager) (to_address : String) (value_eth : ℚ) (data : String)
    (now : Nat) (a : String) (hcs : checksum to_address = some a)
    (hmem : a ∉ s.allowed_contracts) (hpos : 0 < value_eth)
    (hle : value_eth ≤ s.max_trade_amount_eth) :
    (assess_trade checksum s to_address value_eth data now).approved = false ∧
    100 ≤ (assess_trade checksum s to_address value_eth data now).risk_score ∧
    (assess_trade checksum s to_address value_eth data now).reason =
      "Contract " ++ a ++ " not in allowed contracts list" ∧
    ∃ p q, (assess_trade checksum s to_address value_eth data now).reason =
      p ++ a ++ q := by
  unfold assess_trade
  rw [hcs]
  dsimp only
  rw [if_neg (not_lt.mpr hle), if_pos hmem]
  exact ⟨rfl, by norm_num, rfl, "Contract ", " not in allowed contracts list", rfl⟩

/-! ## C1 — non-positive value is always rejected, but the check runs last -/

/-- C1 counterexample: with the default limits, a zero-value intent to a
destination outside the allow-list is rejected with the allow-list
reason, not "Trade amount must be positive", and its decision differs
from the decision for the same zero-value intent to the allow-listed
destination — so the non-positive-value check is not applied first and
the result does depend on the destination. -/
theorem assess_nonpositive_not_first_cex :
    (assess_trade csSome mgrA "0xB" 0 "0x" 0).reason
        = "Contract 0xB not in allowed contracts list" ∧
    (assess_trade csSome mgrA "0xA" 0 "0x" 0).reason
        = "Trade amount must be positive" ∧
    (assess_trade csSome mgrA "0xB" 0 "0x" 0).reason
        ≠ (assess_trade csSome mgrA "0xA" 0 "0x" 0).reason := by
  refine ⟨?_, ?_, ?_⟩ <;> norm_num [assess_trade, csSome, mgrA, dayOf, hourOf] <;>
    decide

/-- C1 (amended): every intent with `value_eth ≤ 0` is rejected, but the
non-positive-value check runs last, after the amount-limit, allow-list
and window-counter checks: only when those all pass does the decision
carry reason "Trade amount must be positive" and score 100 plus the
large-payload warning's 10 when that fired; otherwise the earlier
failing check determines reason and score. -/
theorem assess_nonpositive_rejected (checksum : String → Option String)
    (s : RiskManager) (to_address : String) (value_eth : ℚ) (data : String)
    (now : Nat) (hv : value_eth ≤ 0) :
    (assess_trade checksum s to_address value_eth data now).approved = false ∧
    (∀ a, checksum to_address = some a →
      value_eth ≤ s.max_trade_amount_eth →
      a ∈ s.allowed_contracts →
      s.daily_volume (dayOf now) + value_eth ≤ s.max_daily_volume_eth →
      s.hourly_trade_count (hourOf now) < s.max_hourly_trades →
      s.daily_trade_count (dayOf now) < s.max_daily_trades →
      (assess_trade checksum s to_address value_eth data now).reason
          = "Trade amount must be positive" ∧
      (assess_trade checksum s to_address value_eth data now).risk_score
          = (if data ≠ "" && data ≠ "0x" && decide (10000 < data.length)
             then 10 else 0) + 100) := by
  constructor
  · unfold assess_trade
    cases checksum to_address with
    | none => rfl
    | some addr =>
        dsimp only
        repeat' split
        all_goals first
          | rfl
          | exact absurd hv (by assumption)
  · intro a hcs hle hmem hvol hhour hday
    unfold assess_trade
    rw [hcs]
    dsimp only
    rw [if_neg (not_lt.mpr hle), if_neg (not_not_intro hmem), if_neg (not_lt.mpr hvol),
        if_neg (not_le.mpr hhour), if_neg (not_le.mpr hday), if_pos hv]
    exact ⟨rfl, rfl⟩

/-! ## C3 — window rollover -/

/-- C3 counterexample: in `mgrC3` the trade of 4 to the allow-listed
destination would push the (empty) current day bucket past the daily
volume cap of 3 and is rejected; at a clock one day later every counter
of the new bucket is zero and under its limit, yet the identical trade
is rejected again, because the value alone exceeds the daily volume
cap — the claim's second half fails. -/
theorem window_rollover_cex :
    "0xA" ∈ mgrC3.allowed_contracts ∧
    mgrC3.daily_volume (dayOf 0) + 4 > mgrC3.max_daily_volume_eth ∧
    mgrC3.hourly_trade_count (hourOf 86400) < mgrC3.max_hourly_trades ∧
    mgrC3.daily_trade_count (dayOf 86400) < mgrC3.max_daily_trades ∧
    dayOf 86400 = dayOf 0 + 1 ∧
    (assess_trade csSome mgrC3 "0xA" 4 "0x" 0).approved = false ∧
    (assess_trade csSome mgrC3 "0xA" 4 "0x" 86400).approved = false := by
  refine ⟨?_, ?_, ?_, ?_, ?_, ?_, ?_⟩ <;>
    norm_num [assess_trade, csSome, mgrC3, dayOf, hourOf]

/-- C3 (amended): a trade to an allow-listed destination that would push
the current day bucket's volume over the daily cap is rejected; the
identical trade at a clock instant whose day bucket has zero volume is
approved provided the trade on its own passes the per-trade checks
(`0 < value_eth ≤ max_trade_amount_eth`), fits the daily cap by itself
(`value_eth ≤ max_daily_volume_eth`), and the new instant's hourly and
daily counters are under their limits. -/
theorem window_rollover (checksum : String → Option String) (s : RiskManager)
    (to_address : String) (value_eth : ℚ) (data : String) (t t' : Nat)
    (a : String) (hcs : checksum to_address = some a)
    (hmem : a ∈ s.allowed_contracts)
    (hover : s.daily_volume (dayOf t) + value_eth > s.max_daily_volume_eth) :
    (assess_trade checksum s to_address value_eth data t).approved = false ∧
    (0 < value_eth → value_eth ≤ s.max_trade_amount_eth →
     value_eth ≤ s.max_daily_volume_eth →
     s.daily_volume (dayOf t') = 0 →
     s.hourly_trade_count (hourOf t') < s.max_hourly_trades →
     s.daily_trade_count (dayOf t') < s.max_daily_trades →
     (assess_trade checksum s to_address value_eth data t').approved = true) := by
  constructor
  · unfold assess_trade
    rw [hcs]
    dsimp only
    by_cases h1 : value_eth > s.max_trade_amount_eth
    · rw [if_pos h1]
    · rw [if_neg h1, if_neg (not_not_intro hmem), if_pos hover]
  · intro hpos hle hled hzero hhour hday
    unfold assess_trade
    rw [hcs]
    dsimp only
    rw [if_neg (not_lt.mpr hle), if_neg (not_not_intro hmem),
        if_neg (show ¬ s.daily_volume (dayOf t') + value_eth > s.max_daily_volume_eth by
          rw [hzero, zero_add]; exact not_lt.mpr hled),
        if_neg (not_le.mpr hhour), if_neg (not_le.mpr hday),
        if_neg (not_le.mpr hpos)]

/-! ## C7 — record semantics -/

/-- C7: for every well-formed destination (one the normalizer accepts),
`record_trade` adds the value to the current day bucket's volume, adds
one to the day bucket's and the hour bucket's trade counts, appends
exactly one `TradeRecord`, and afterwards the history is the at most
1000 most recent entries of the appended history, oldest evicted
first (a suffix). -/
theorem record_trade_spec (checksum : String → Option String) (s : RiskManager)
    (to_address : String) (value_eth : ℚ) (tx_hash : String) (now : Nat)
    (a : String) (hcs : checksum to_address = some a) :
    ∃ r : TradeRecord,
      r = { timestamp := now, to_address := a, value_eth := value_eth, tx_hash := tx_hash,
            daily_volume := s.daily_volume (dayOf now) + value_eth,
            daily_trade_count := s.daily_trade_count (dayOf now) + 1 } ∧
      (record_trade checksum s to_address value_eth tx_hash now).daily_volume (dayOf now)
          = s.daily_volume (dayOf now) + value_eth ∧
      (record_trade checksum s to_address value_eth tx_hash now).daily_trade_count (dayOf now)
          = s.daily_trade_count (dayOf now) + 1 ∧
      (record_trade checksum s to_address value_eth tx_hash now).hourly_trade_count (hourOf now)
          = s.hourly_trade_count (hourOf now) + 1 ∧
      (record_trade checksum s to_address value_eth tx_hash now).trade_history
          = (s.trade_history ++ [r]).drop ((s.trade_history ++ [r]).length - 1000) ∧
      (record_trade checksum s to_address value_eth tx_hash now).trade_history.length ≤ 1000 ∧
      List.IsSuffix
        (record_trade checksum s to_address value_eth tx_hash now).trade_history
        (s.trade_history ++ [r]) := by
  unfold record_trade
  rw [hcs]
  dsimp only
  refine ⟨_, rfl, by simp, by simp, by simp, ?_, ?_, ?_⟩
  · split
    next h => rfl
    next h => rw [Nat.sub_eq_zero_of_le (Nat.le_of_not_lt h), List.drop_zero]
  · split
    next h => simp only [List.length_drop]; omega
    next h => exact Nat.le_of_not_lt h
  · split
    next h => exact List.drop_suffix _ _
    next h => exact List.suffix_refl _

/-! ## Monitor lemmas -/

/-- A parsed trade is at most 300 seconds old at the parsing instant. -/
theorem parse_trade_data_fresh (now : Nat) (td : TradeData) (a : String)
    (trade : WhaleTrade) (hp : parse_trade_data now td a = some trade) :
    now - trade.timestamp ≤ 300 := by
  unfold parse_trade_data at hp
  dsimp only at hp
  split at hp
  · exact absurd hp (by simp)
  · next h =>
      obtain rfl := Option.some.inj hp
      exact Nat.le_of_not_lt h

/-- The seen set only grows across one feed pass. -/
theorem processFeed_seen_mono (a : String) (now : Nat) (feed : List TradeData) :
    ∀ seen x, x ∈ seen → x ∈ (processFeed a now seen feed).1 := by
  induction feed with
  | nil => exact fun seen x hx => hx
  | cons td rest ih =>
      intro seen x hx
      unfold processFeed
      cases parse_trade_data now td a with
      | none => exact ih seen x hx
      | some trade =>
          dsimp only
          by_cases hmem : trade.trade_hash ∈ seen
          · rw [if_pos hmem]
            exact ih seen x hx
          · rw [if_neg hmem]
            exact ih (trade.trade_hash :: seen) x (List.mem_cons_of_mem _ hx)

/-- A ref already in the seen set never appears among the trades a feed
pass emits. -/
theorem processFeed_blocked (a : String) (now : Nat) (feed : List TradeData) :
    ∀ seen ref, ref ∈ seen →
      (processFeed a now seen feed).2.countP (fun tr => tr.trade_hash == ref) = 0 := by
  induction feed with
  | nil => intro seen ref _; simp [processFeed]
  | cons td rest ih =>
      intro seen ref href
      unfold processFeed
      cases parse_trade_data now td a with
      | none => exact ih seen ref href
      | some trade =>
          dsimp only
          by_cases hmem : trade.trade_hash ∈ seen
          · rw [if_pos hmem]
            exact ih seen ref href
          · rw [if_neg hmem]
            have hne : (trade.trade_hash == ref) = false := by
              refine beq_eq_false_iff_ne.mpr fun he => hmem ?_
              rw [he]; exact href
            rw [List.countP_cons, hne]
            simpa using ih (trade.trade_hash :: seen) ref (List.mem_cons_of_mem _ href)

/-- One feed pass emits a given ref at most once, and if it emits it the
ref lands in the resulting seen set. -/
theorem processFeed_count (a : String) (now : Nat) (feed : List TradeData) :
    ∀ seen ref,
      (processFeed a now seen feed).2.countP (fun tr => tr.trade_hash == ref) ≤ 1 ∧
      (1 ≤ (processFeed a now seen feed).2.countP (fun tr => tr.trade_hash == ref) →
        ref ∈ (processFeed a now seen feed).1) := by
  induction feed with
  | nil => intro seen ref; constructor <;> simp [processFeed]
  | cons td rest ih =>
      intro seen ref
      unfold processFeed
      cases parse_trade_data now td a with
      | none => exact ih seen ref
      | some trade =>
          dsimp only
          by_cases hmem : trade.trade_hash ∈ seen
          · rw [if_pos hmem]
            exact ih seen ref
          · rw [if_neg hmem]
            by_cases heq : trade.trade_hash = ref
            · have hblocked := processFeed_blocked a now rest (trade.trade_hash :: seen) ref
                (by rw [heq]; exact List.mem_cons_self _ _)
              constructor
              · rw [List.countP_cons, hblocked]
                simp [heq]
              · intro _
                exact processFeed_seen_mono a now rest (trade.trade_hash :: seen) ref
                  (by rw [← heq]; exact List.mem_cons_self _ _)
            · have hne : (trade.trade_hash == ref) = false := beq_eq_false_iff_ne.mpr heq
              have hih := ih (trade.trade_hash :: seen) ref
              constructor
              · rw [List.countP_cons, hne]
                simpa using hih.1
              · intro h1
                rw [List.countP_cons, hne] at h1
                exact hih.2 (by simpa using h1)

/-- The per-address seen set only grows across one poll cycle. -/
theorem check_whale_trades_seen_mono (ms : WhaleMonitor) (whale_address : String)
    (feed : List TradeData) (now : Nat) (ref : String)
    (h : ref ∈ ms.recent_trades whale_address) :
    ref ∈ (check_whale_trades ms whale_address feed now).1.recent_trades whale_address := by
  unfold check_whale_trades
  cases ms.monitored_whales.lookup whale_address with
  | none => exact h
  | some cfg =>
      dsimp only
      by_cases he : cfg.enabled = false
      · rw [if_pos he]
        exact h
      · rw [if_neg he]
        dsimp only
        rw [if_pos rfl]
        exact processFeed_seen_mono whale_address now feed _ ref h

/-- A ref already seen for an address is never emitted by a later poll
cycle for that address. -/
theorem check_whale_trades_blocked (ms : WhaleMonitor) (whale_address : String)
    (feed : List TradeData) (now : Nat) (ref : String)
    (h : ref ∈ ms.recent_trades whale_address) :
    (check_whale_trades ms whale_address feed now).2.countP
      (fun tr => tr.trade_hash == ref) = 0 := by
  unfold check_whale_trades
  cases ms.monitored_whales.lookup whale_address with
  | none => simp
  | some cfg =>
      dsimp only
      by_cases he : cfg.enabled = false
      · rw [if_pos he]
        simp
      · rw [if_neg he]
        exact processFeed_blocked whale_address now feed _ ref h

/-- One poll cycle emits a given ref at most once, and afterwards the
ref is in the seen set whenever it was emitted. -/
theorem check_whale_trades_count (ms : WhaleMonitor) (whale_address : String)
    (feed : List TradeData) (now : Nat) (ref : String) :
    (check_whale_trades ms whale_address feed now).2.countP
        (fun tr => tr.trade_hash == ref) ≤ 1 ∧
    (1 ≤ (check_whale_trades ms whale_address feed now).2.countP
        (fun tr => tr.trade_hash == ref) →
      ref ∈ (check_whale_trades ms whale_address feed now).1.recent_trades whale_address) := by
  unfold check_whale_trades
  cases ms.monitored_whales.lookup whale_address with
  | none => constructor <;> simp
  | some cfg =>
      dsimp only
      by_cases he : cfg.enabled = false
      · rw [if_pos he]
        constructor <;> simp
      · rw [if_neg he]
        dsimp only
        rw [if_pos rfl]
        exact processFeed_count whale_address now feed _ ref

/-- Across any sequence of poll cycles: at most one emission of a given
ref, and none at all when the ref starts out in the seen set. -/
theorem runCycles_count_invariant (whale_address : String) (ref : String) :
    ∀ (cycles : List (List TradeData × Nat)) (ms : WhaleMonitor),
      (runCycles whale_address ms cycles).2.countP
          (fun tr => tr.trade_hash == ref) ≤ 1 ∧
      (ref ∈ ms.recent_trades whale_address →
        (runCycles whale_address ms cycles).2.countP
          (fun tr => tr.trade_hash == ref) = 0) := by
  intro cycles
  induction cycles with
  | nil => intro ms; constructor <;> simp [runCycles]
  | cons c rest ih =>
      intro ms
      unfold runCycles
      dsimp only
      rw [List.countP_append]
      constructor
      · rcases Nat.eq_zero_or_pos
          ((check_whale_trades ms whale_address c.1 c.2).2.countP
            (fun tr => tr.trade_hash == ref)) with h0 | hpos
        · rw [h0]
          simpa using (ih _).1
        · have h1 := (check_whale_trades_count ms whale_address c.1 c.2 ref).1
          have hin := (check_whale_trades_count ms whale_address c.1 c.2 ref).2 hpos
          have h2 := (ih _).2 hin
          omega
      · intro href
        rw [check_whale_trades_blocked ms whale_address c.1 c.2 ref href,
            (ih _).2 (check_whale_trades_seen_mono ms whale_address c.1 c.2 ref href)]

/-! ## C4 — dedup: at most one copy-execution attempt per (address, ref) -/

/-- C4: over any sequence of poll cycles for a tracked address — however
often the same `externalTradeRef` recurs in the feed results — the
monitor emits at most one copy-execution attempt carrying that ref,
because each emitted trade's ref is added to the address's seen set
within the same `check_whale_trades` pass, before the loop acts on
anything. -/
theorem dedup_at_most_once (whale_address : String) (ms : WhaleMonitor)
    (cycles : List (List TradeData × Nat)) (ref : String) :
    (runCycles whale_address ms cycles).2.countP
      (fun tr => tr.trade_hash == ref) ≤ 1 :=
  (runCycles_count_invariant whale_address ref cycles ms).1

/-- Every trade a feed pass emits is at most 300 seconds old. -/
theorem processFeed_fresh (a : String) (now : Nat) (feed : List TradeData) :
    ∀ seen tr, tr ∈ (processFeed a now seen feed).2 → now - tr.timestamp ≤ 300 := by
  induction feed with
  | nil => intro seen tr h; simp [processFeed] at h
  | cons td rest ih =>
      intro seen tr h
      revert h
      unfold processFeed
      cases hp : parse_trade_data now td a with
      | none => exact fun h => ih seen tr h
      | some trade =>
          dsimp only
          by_cases hmem : trade.trade_hash ∈ seen
          · rw [if_pos hmem]
            exact fun h => ih seen tr h
          · rw [if_neg hmem]
            intro h
            rcases List.mem_cons.mp h with he | hrest
            · rw [he]
              exact parse_trade_data_fresh now td a trade hp
            · exact ih (trade.trade_hash :: seen) tr hrest

/-! ## C5 — stale trades never trigger execution -/

/-- C5: every trade a poll cycle emits for copy execution was observed
at most five minutes (300 s) before the cycle's clock instant: a trade
whose `observedAt` is more than five minutes old is discarded by
`parse_trade_data` and never reaches execution, even on first sight. -/
theorem stale_trade_never_triggers (ms : WhaleMonitor) (whale_address : String)
    (feed : List TradeData) (now : Nat) (tr : WhaleTrade)
    (h : tr ∈ (check_whale_trades ms whale_address feed now).2) :
    now - tr.timestamp ≤ 300 := by
  unfold check_whale_trades at h
  revert h
  cases ms.monitored_whales.lookup whale_address with
  | none => intro h; simp at h
  | some cfg =>
      dsimp only
      by_cases he : cfg.enabled = false
      · rw [if_pos he]
        intro h
        simp at h
      · rw [if_neg he]
        intro h
        exact processFeed_fresh whale_address now feed _ tr h

/-- C5 witness: the fresh feed item `tdFresh` is emitted by a concrete
cycle at `now = 1000` and its observation instant is within the
five-minute window. -/
theorem stale_trade_never_triggers_witness : 1000 - trW.timestamp ≤ 300 :=
  stale_trade_never_triggers msW "0xW" [tdFresh] 1000 trW
    (by
      have h : (check_whale_trades msW "0xW" [tdFresh] 1000).2 = [trW] := rfl
      rw [h]
      exact List.mem_cons_self _ _)

/-! ## C10 — missing or unparseable timestamps default to now -/

/-- C10: a feed item whose timestamp is missing or unparseable is
assigned the current instant as its `observedAt`, so the five-minute
freshness filter always passes for it: `parse_trade_data` returns a
trade whose timestamp is `now`. -/
theorem missing_timestamp_always_fresh (now : Nat) (td : TradeData)
    (whale_address : String) (h : td.timestamp = none) :
    ∃ tr, parse_trade_data now td whale_address = some tr ∧ tr.timestamp = now := by
  unfold parse_trade_data
  rw [h]
  dsimp only [Option.getD]
  rw [if_neg (by omega : ¬ now - now > 300)]
  exact ⟨_, rfl, rfl⟩

/-- C10 witness: the concrete item `tdNoTs` (no usable timestamp) parses
to a trade observed at the current instant. -/
theorem missing_timestamp_always_fresh_witness :
    ∃ tr, parse_trade_data 1000 tdNoTs "0xW" = some tr ∧ tr.timestamp = 1000 :=
  missing_timestamp_always_fresh 1000 tdNoTs "0xW" rfl

/-! ## C8 — executor structural validation fails fast -/

/-- The validator `_validate_trade_inputs` raises on every input violating one of its
four checks. -/
theorem validate_some_of (a : String) (value_eth : ℚ) (data : String)
    (h : a = "" ∨ a.length ≠ 42 ∨ ¬ strStartsWith a "0x" ∨ value_eth ≤ 0
        ∨ value_eth > 1000
        ∨ (data ≠ "" ∧ (¬ strStartsWith data "0x" ∨ data.length % 2 ≠ 0))) :
    ∃ msg, validate_trade_inputs a value_eth data = some msg := by
  unfold validate_trade_inputs
  by_cases h1 : a = "" ∨ a.length ≠ 42 ∨ ¬ strStartsWith a "0x"
  · rw [if_pos h1]
    exact ⟨_, rfl⟩
  · rw [if_neg h1]
    by_cases h2 : value_eth ≤ 0
    · rw [if_pos h2]
      exact ⟨_, rfl⟩
    · rw [if_neg h2]
      by_cases h3 : value_eth > 1000
      · rw [if_pos h3]
        exact ⟨_, rfl⟩
      · rw [if_neg h3]
        have h4 : data ≠ "" ∧ (¬ strStartsWith data "0x" ∨ data.length % 2 ≠ 0) := by
          tauto
        rw [if_pos h4]
        exact ⟨_, rfl⟩

/-- C8 counterexample: the payload "0xzz" is neither empty nor valid hex
(in the spec's sense, `specValidHexPayload`), yet `execute_trade` does
not fail validation: it reaches the gateway and returns that gateway's
risk rejection, so the assessment was consulted. -/
theorem validation_hex_not_checked_cex :
    "0xzz" ≠ "" ∧
    specValidHexPayload "0xzz" = false ∧
    execute_trade csSome envA mgrA addr42 1 "0xzz" 0
      = Except.error (ExecError.riskRejected
          ("Trade rejected by risk manager: "
            ++ ("Contract " ++ addr42 ++ " not in allowed contracts list"))) := by
  refine ⟨by decide, by decide, ?_⟩
  rfl

/-- C8 (amended): a malformed destination (one the normalizer rejects,
or failing the post-normalization shape check), a `value_eth` outside
`(0, 1000]`, or a non-empty payload that does not start with `0x` or has
odd length, makes `execute_trade` fail with a validation error whose
value is the same for every gateway state — the risk assessment is never
consulted.  (The code does not check that payload characters are hex
digits: only prefix and length parity.) -/
theorem validation_fails_fast (checksum : String → Option String) (env : ChainEnv)
    (to_address : String) (value_eth : ℚ) (data : String) (now : Nat)
    (h : checksum to_address = none
       ∨ ∃ a, checksum to_address = some a ∧
           (a = "" ∨ a.length ≠ 42 ∨ ¬ strStartsWith a "0x" ∨ value_eth ≤ 0
             ∨ value_eth > 1000
             ∨ (data ≠ "" ∧ (¬ strStartsWith data "0x" ∨ data.length % 2 ≠ 0)))) :
    ∃ msg, ∀ s : RiskManager,
      execute_trade checksum env s to_address value_eth data now
        = Except.error (ExecError.validation msg) := by
  rcases h with hnone | ⟨a, hcs, hbad⟩
  · refine ⟨"Unknown address format", fun s => ?_⟩
    unfold execute_trade
    rw [hnone]
  · obtain ⟨msg, hval⟩ := validate_some_of a value_eth data hbad
    refine ⟨msg, fun s => ?_⟩
    unfold execute_trade
    rw [hcs]
    dsimp only
    rw [hval]

/-- C8 witness: a negative amount with an otherwise well-formed address
and payload yields the same validation error for every gateway state. -/
theorem validation_fails_fast_witness :
    ∃ msg, ∀ s : RiskManager,
      execute_trade csSome envA s addr42 (-1) "0x" 0
        = Except.error (ExecError.validation msg) :=
  validation_fails_fast csSome envA addr42 (-1) "0x" 0
    (Or.inr ⟨addr42, rfl, by norm_num⟩)

/-! ## Remaining witnesses -/

/-- C1 witness: a zero-value intent to the allow-listed destination with
all earlier checks passing is rejected with the positive-amount reason
and score 100. -/
theorem assess_nonpositive_rejected_witness :
    (assess_trade csSome mgrA "0xA" 0 "0x" 0).approved = false ∧
    (assess_trade csSome mgrA "0xA" 0 "0x" 0).reason = "Trade amount must be positive" ∧
    (assess_trade csSome mgrA "0xA" 0 "0x" 0).risk_score = 100 := by
  have h := assess_nonpositive_rejected csSome mgrA "0xA" 0 "0x" 0 (by norm_num)
  have h2 := h.2 "0xA" rfl (by norm_num [mgrA]) (by simp [mgrA])
    (by norm_num [mgrA]) (by norm_num [mgrA]) (by norm_num [mgrA])
  refine ⟨h.1, h2.1, ?_⟩
  rw [h2.2]
  decide

/-- C3 witness: with the day-0 bucket already at the daily cap, the
1-ETH trade is rejected on day 0 and approved in the empty day-1
bucket. -/
theorem window_rollover_witness :
    (assess_trade csSome
        { mgrA with daily_volume := fun d => if d = 0 then 10 else 0 }
        "0xA" 1 "0x" 0).approved = false ∧
    (assess_trade csSome
        { mgrA with daily_volume := fun d => if d = 0 then 10 else 0 }
        "0xA" 1 "0x" 86400).approved = true := by
  have h := window_rollover csSome
    { mgrA with daily_volume := fun d => if d = 0 then 10 else 0 }
    "0xA" 1 "0x" 0 86400 "0xA" rfl (by simp [mgrA]) (by norm_num [mgrA, dayOf])
  exact ⟨h.1, h.2 (by norm_num) (by norm_num [mgrA]) (by norm_num [mgrA])
    (by norm_num [mgrA, dayOf]) (by norm_num [mgrA, hourOf]) (by norm_num [mgrA, dayOf])⟩

/-- C6 witness: a 1-ETH intent to the non-allow-listed destination `0xB`
is rejected with score 100 and a reason naming the address. -/
theorem assess_not_allow_listed_witness :
    (assess_trade csSome mgrA "0xB" 1 "0x" 0).approved = false ∧
    100 ≤ (assess_trade csSome mgrA "0xB" 1 "0x" 0).risk_score ∧
    (assess_trade csSome mgrA "0xB" 1 "0x" 0).reason =
      "Contract " ++ "0xB" ++ " not in allowed contracts list" ∧
    ∃ p q, (assess_trade csSome mgrA "0xB" 1 "0x" 0).reason = p ++ "0xB" ++ q :=
  assess_not_allow_listed csSome mgrA "0xB" 1 "0x" 0 "0xB" rfl
    (by simp [mgrA]) (by norm_num) (by norm_num [mgrA])

/-- C7 witness: recording a 1-ETH trade into the fresh default state
updates the three counters of the instant's buckets and appends the one
new history entry. -/
theorem record_trade_spec_witness :
    ∃ r : TradeRecord,
      r = { timestamp := 0, to_address := "0xA", value_eth := 1, tx_hash := "0xtx",
            daily_volume := mgrA.daily_volume (dayOf 0) + 1,
            daily_trade_count := mgrA.daily_trade_count (dayOf 0) + 1 } ∧
      (record_trade csSome mgrA "0xA" 1 "0xtx" 0).daily_volume (dayOf 0)
          = mgrA.daily_volume (dayOf 0) + 1 ∧
      (record_trade csSome mgrA "0xA" 1 "0xtx" 0).daily_trade_count (dayOf 0)
          = mgrA.daily_trade_count (dayOf 0) + 1 ∧
      (record_trade csSome mgrA "0xA" 1 "0xtx" 0).hourly_trade_count (hourOf 0)
          = mgrA.hourly_trade_count (hourOf 0) + 1 ∧
      (record_trade csSome mgrA "0xA" 1 "0xtx" 0).trade_history
          = (mgrA.trade_history ++ [r]).drop ((mgrA.trade_history ++ [r]).length - 1000) ∧
      (record_trade csSome mgrA "0xA" 1 "0xtx" 0).trade_history.length ≤ 1000 ∧
      List.IsSuffix
        (record_trade csSome mgrA "0xA" 1 "0xtx" 0).trade_history
        (mgrA.trade_history ++ [r]) :=
  record_trade_spec csSome mgrA "0xA" 1 "0xtx" 0 "0xA" rfl

end A3T
